import Mathlib

/-!
Verification of hivematrix-brainhair's session orchestration and
streaming-protocol engine against its specification.

The definitions below are a shallow embedding of the Python source:

* `handleChain`, `handleEvent`, `decodeLine`, `runLines` embed the event
  loop of `ClaudeSession.send_message_stream`
  (app/claude_session_manager.py, lines 395-515): one parsed JSON line is
  dispatched on its `type` field, at most one `stream_event` envelope is
  unwrapped, text deltas are accumulated and yielded, `message_stop` ends
  the loop unless the remembered stop reason is `tool_use`, and `result`
  always ends the loop.
* `runTimedAux` and `send_message_stream_timed` embed the same loop with
  the line-arrival times made explicit, together with the idle-timeout
  check (`idle_time > idle_timeout` evaluated after a line has been read)
  and the post-loop exit-code check.
* `poll_response`, `injectApprovals` embed `poll_response` in
  app/chat_routes.py (lines 142-189): approval-request files for the
  session are injected into the chunk buffer with a dedup check on
  `approval_id`, the slice past `offset` is returned, and the buffer is
  deleted once `done` is observed with every chunk consumed.
* `create_approval_request`, `poll_approval`, `respond_to_approval` embed
  the approval endpoints in app/chat_routes.py (lines 709-820); the
  `/tmp/brainhair_approval_response_*.json` files are modelled as a map
  from approval id to the written decision.
* `destroy_session`, `cleanup_idle_sessions` embed
  `ClaudeSessionManager.destroy_session` / `cleanup_idle_sessions`
  (app/claude_session_manager.py, lines 733-772).

Nondeterministic inputs of the code (uuid4 ids, `time.time()` readings,
the list of lines produced by the child process) are passed to the
embedded functions as explicit parameters.  Fields read with
`dict.get(key, default)` in the source are modelled as `Option` fields
with the same default applied at the use site.
-/

/-- A `delta` payload of a `content_block_delta` event, dispatched on its
`type` field exactly as the source does. -/
inductive BlockDelta where
  | textDelta (text : Option String)
  | inputJsonDelta (partialJson : Option String)
  | otherDelta
  deriving DecidableEq, Repr

/-- A `content_block` payload of a `content_block_start` event. -/
inductive ContentBlock where
  | toolUse (name : Option String)
  | otherBlock
  deriving DecidableEq, Repr

/-- One parsed JSON event of the stream protocol, abstracted to the
fields the source dispatches on.  `approvalRequest` keeps the raw
serialized event because the source yields `json.dumps(event)` for it;
`streamEvent` is the one-level envelope; `unknown` stands for any other
`type` tag. -/
inductive Ev where
  | approvalRequest (raw : String)
  | streamEvent (inner : Ev)
  | contentBlockDelta (delta : BlockDelta)
  | contentBlockStart (block : ContentBlock)
  | assistant
  | messageStop
  | result
  | system
  | messageStart
  | userEcho
  | contentBlockStop
  | messageDelta (stopReason : Option String)
  | unknown (tag : String)
  deriving DecidableEq, Repr

/-- One raw line read from the child process: blank, not valid JSON
(`json.loads` raises `JSONDecodeError`), or a parsed event. -/
inductive Line where
  | blank
  | notJson (s : String)
  | ev (e : Ev)
  deriving DecidableEq, Repr

/-- One value yielded by `send_message_stream`: a raw text chunk
(text deltas), a serialized approval request, a `live_message` JSON
chunk, the hung-process message, or the post-loop exit-code error
chunk. -/
inductive Update where
  | textDelta (t : String)
  | approvalRequest (raw : String)
  | liveMessage (s : String)
  | hungMessage
  | exitError (code : Int)
  deriving DecidableEq, Repr

/-- The loop-local state of `send_message_stream`: the accumulated
`response_text`, the remembered `_last_stop_reason`, and the
`current_tool` / `current_tool_input` trackers. -/
structure DecState where
  responseText : String
  lastStopReason : Option String
  currentTool : Option String
  currentToolInput : String
  deriving DecidableEq, Repr

/-- The state at loop entry: `response_text = ""`,
`self._last_stop_reason = None`, `current_tool = None`,
`current_tool_input = ""`. -/
def initDecState : DecState :=
  { responseText := "", lastStopReason := none,
    currentTool := none, currentToolInput := "" }

/-- The `if event_type == ... / elif ...` dispatch chain of
`send_message_stream` (lines 432-508), applied after the
`approval_request` check and the one-level `stream_event` unwrap.
Returns the new state, the yielded chunks, and whether the loop `break`s
on this event. -/
def handleChain (st : DecState) : Ev → DecState × List Update × Bool
  | .contentBlockDelta (.textDelta text) =>
      let t := text.getD ""
      ({ st with responseText := st.responseText ++ t }, [.textDelta t], false)
  | .contentBlockDelta (.inputJsonDelta partialJson) =>
      ({ st with currentToolInput := st.currentToolInput ++ partialJson.getD "" },
       [], false)
  | .contentBlockDelta .otherDelta => (st, [], false)
  | .contentBlockStart (.toolUse name) =>
      ({ st with currentTool := some (name.getD "unknown"), currentToolInput := "" },
       [], false)
  | .contentBlockStart .otherBlock => (st, [], false)
  | .assistant => (st, [], false)
  | .messageStop =>
      if st.lastStopReason = some "tool_use" then (st, [], false)
      else (st, [], true)
  | .result => (st, [], true)
  | .system => (st, [.liveMessage "Initializing Claude Code..."], false)
  | .messageStart => (st, [.liveMessage "Claude is responding..."], false)
  | .userEcho => (st, [], false)
  | .contentBlockStop =>
      match st.currentTool with
      | some t =>
          if t = "" then (st, [], false)
          else ({ st with currentTool := none, currentToolInput := "" }, [], false)
      | none => (st, [], false)
  | .messageDelta stopReason =>
      match stopReason with
      | some s => if s = "" then (st, [], false)
                  else ({ st with lastStopReason := some s }, [], false)
      | none => (st, [], false)
  | _ => (st, [], false)

/-- Handling of one parsed event: the `approval_request` passthrough is
checked first (the source yields the serialized event and `continue`s),
then a `stream_event` envelope is unwrapped once and its inner event is
sent through the dispatch chain. -/
def handleEvent (st : DecState) : Ev → DecState × List Update × Bool
  | .approvalRequest raw => (st, [.approvalRequest raw], false)
  | .streamEvent inner => handleChain st inner
  | e => handleChain st e

/-- Handling of one raw line: blank lines are skipped, a line that fails
`json.loads` yields a `live_message` chunk carrying the line, and a
parsed event is dispatched through `handleEvent`.  Total by
construction, matching the source's blanket `except` handlers: no line
can raise out of the loop body. -/
def decodeLine (st : DecState) : Line → DecState × List Update × Bool
  | .blank => (st, [], false)
  | .notJson s => (st, [.liveMessage s], false)
  | .ev e => handleEvent st e

/-- The streaming loop over a list of lines, for a run in which the
child process stays alive (`process.poll()` returns `None`) and every
line arrives within the idle budget: each line is decoded, its yields
are appended in order, and the loop stops at the first line whose
handler `break`s. -/
def runLines (st : DecState) : List Line → DecState × List Update
  | [] => (st, [])
  | l :: rest =>
      let r := decodeLine st l
      if r.2.2 then (r.1, r.2.1)
      else
        let r' := runLines r.1 rest
        (r'.1, r.2.1 ++ r'.2)

/-- One raw line together with the `time.time()` reading taken when the
blocking `readline` returns it. -/
structure TimedLine where
  time : Nat
  line : Line
  deriving DecidableEq, Repr

/-- The streaming loop with the idle-timeout logic made explicit
(lines 395-414 of app/claude_session_manager.py).  The loop blocks in
`process.stdout.readline`; the idle check `idle_time > idle_timeout`
runs only once a line has been returned, with `idle_time` the gap
between that line's arrival and `last_output_time`.  A blank line is
skipped before `last_output_time` is reset, so it does not feed the idle
clock.  On a timeout the source kills the process, yields the
hung-process message and `break`s.  Returns the final decode state, the
yielded chunks, and `some t` when the kill happened at time `t`.  An
exhausted list with no terminal event models a child that produces no
further line: the loop body never runs again, so no kill and no yield
can happen. -/
def runTimedAux (idleTimeout : Nat) (st : DecState) (lastOutputTime : Nat) :
    List TimedLine → DecState × List Update × Option Nat
  | [] => (st, [], none)
  | tl :: rest =>
      if idleTimeout < tl.time - lastOutputTime then
        (st, [.hungMessage], some tl.time)
      else if tl.line = .blank then
        runTimedAux idleTimeout st lastOutputTime rest
      else
        let r := decodeLine st tl.line
        if r.2.2 then (r.1, r.2.1, none)
        else
          let r' := runTimedAux idleTimeout r.1 tl.time rest
          (r'.1, r.2.1 ++ r'.2.1, r'.2.2)

/-- The whole of `send_message_stream` after the spawn, at the update
level: the timed loop (idle budget 120s, `last_output_time` starting at
the spawn reading `startTime`), then the post-loop exit check.  A
process killed by the idle watchdog exits with `returncode = -9`
(SIGKILL); otherwise the child's own exit code `exitCode` is used; any
nonzero code appends the `[Error: Claude Code exited with code N]`
chunk. -/
def send_message_stream_timed (startTime : Nat) (lines : List TimedLine)
    (exitCode : Int) : List Update :=
  let r := runTimedAux 120 initDecState startTime lines
  let rc : Int := if r.2.2.isSome then -9 else exitCode
  r.2.1 ++ (if rc ≠ 0 then [.exitError rc] else [])

/-- An entry of the in-memory `pending_approvals` table
(app/chat_routes.py, line 23): session id, action, details, a status in
`pending`/`approved`/`denied`, and an optional result. -/
structure Approval where
  sessionId : String
  action : String
  details : List (String × String)
  status : String
  result : Option String
  deriving DecidableEq, Repr

/-- Lookup in an association-list model of a Python dict. -/
def findEntry {α : Type} (l : List (String × α)) (k : String) : Option α :=
  match l with
  | [] => none
  | (k', v) :: t => if k' = k then some v else findEntry t k

/-- `d[k] = v` on the association-list model: replace the entry when the
key is present, append it otherwise. -/
def setEntry {α : Type} (l : List (String × α)) (k : String) (v : α) :
    List (String × α) :=
  if l.any (fun p => p.1 == k) then
    l.map (fun p => if p.1 = k then (k, v) else p)
  else l ++ [(k, v)]

/-- The approval subsystem's shared state: the in-memory
`pending_approvals` dict and the
`/tmp/brainhair_approval_response_<id>.json` files, modelled as a map
from approval id to the `approved` boolean the file holds. -/
structure ApprovalState where
  pendingApprovals : List (String × Approval)
  responseFiles : String → Option Bool

/-- `create_approval_request` (app/chat_routes.py, lines 709-750): a
fresh uuid (passed in as `freshId`) keys a new pending entry; the
endpoint returns the id with status `pending`. -/
def create_approval_request (st : ApprovalState) (freshId sessionId action : String)
    (details : List (String × String)) : ApprovalState × String :=
  let entry : Approval :=
    { sessionId := sessionId, action := action, details := details,
      status := "pending", result := none }
  ({ st with pendingApprovals := setEntry st.pendingApprovals freshId entry },
   freshId)

/-- What `poll_approval` returns: 404 for an unknown id, else the
entry's status and result. -/
inductive PollApprovalResult where
  | notFound
  | ok (status : String) (result : Option String)
  deriving DecidableEq, Repr

/-- `poll_approval` (app/chat_routes.py, lines 753-771): an unknown id
is a 404; otherwise the entry's status and result are returned, and the
entry is deleted when its status is `approved` or `denied`. -/
def poll_approval (st : ApprovalState) (approvalId : String) :
    PollApprovalResult × ApprovalState :=
  match findEntry st.pendingApprovals approvalId with
  | none => (.notFound, st)
  | some a =>
      let st' :=
        if a.status = "approved" ∨ a.status = "denied" then
          { st with pendingApprovals :=
              st.pendingApprovals.filter (fun p => ¬ p.1 = approvalId) }
        else st
      (.ok a.status a.result, st')

/-- `respond_to_approval` (app/chat_routes.py, lines 791-820): whatever
the id, the decision is written to the per-id response file and the
endpoint returns success; the `pending_approvals` table is not
touched. -/
def respond_to_approval (st : ApprovalState) (approvalId : String)
    (approved : Bool) : ApprovalState × Bool :=
  ({ st with responseFiles :=
      fun k => if k = approvalId then some approved else st.responseFiles k },
   true)

/-- One chunk of a response buffer, abstracted to the fields
`poll_response` reads: the `type` and `content` fields of plain chunks
and the `approval_id` field that the dedup check compares.  Every field
is an `Option`, matching `dict.get`. -/
structure Chunk where
  ty : Option String
  content : Option String
  approvalId : Option String
  deriving DecidableEq, Repr

/-- One entry of `response_buffers` (app/chat_routes.py, lines 48 and
95-100): the chunk list, the `done` flag, the optional error text and
the owning session id. -/
structure Buffer where
  chunks : List Chunk
  done : Bool
  error : Option String
  sessionId : Option String
  deriving DecidableEq, Repr

/-- Python truthiness of the buffer's `session_id` value (`None` and the
empty string are falsy). -/
def sessionTruthy : Option String → Bool
  | none => false
  | some s => s ≠ ""

/-- The `any(chunk.get('approval_id') == approval_data.get('approval_id')
for chunk in buffer['chunks'])` dedup check of `poll_response`. -/
def containsApprovalId (chunks : List Chunk) (v : Option String) : Bool :=
  chunks.any (fun ch => ch.approvalId == v)

/-- The approval-file injection loop of `poll_response` (lines 154-169):
each parsed `/tmp/brainhair_approval_request_<session>_*.json` file is
appended to the chunk list unless a chunk with the same `approval_id` is
already present.  Files that fail to read or parse are skipped by the
source's `except` and are simply absent from `files`. -/
def injectApprovals (chunks : List Chunk) : List Chunk → List Chunk
  | [] => chunks
  | f :: fs =>
      let chunks' :=
        if containsApprovalId chunks f.approvalId then chunks
        else chunks ++ [f]
      injectApprovals chunks' fs

/-- The chunk list `poll_response` works with after the injection step:
files are only globbed (and injected) when the buffer's session id is
truthy. -/
def pollChunks (b : Buffer) (files : List Chunk) : List Chunk :=
  if sessionTruthy b.sessionId then injectApprovals b.chunks files
  else b.chunks

/-- What `poll_response` returns: 404 for an unknown response id, or the
JSON body `{chunks, offset, done, error, session_id}`. -/
inductive PollOutcome where
  | notFound
  | ok (chunks : List Chunk) (offset : Nat) (done : Bool)
      (error : Option String) (sessionId : Option String)
  deriving DecidableEq, Repr

/-- `poll_response` (app/chat_routes.py, lines 142-189) for one response
channel: an unknown id is a 404; otherwise approval files are injected
into the buffer, the chunk slice past `offset` is returned together with
the new offset and the `done`/`error` state, and the buffer entry is
deleted (`del response_buffers[response_id]`) when `done` is set and
`offset` has reached the chunk count. -/
def poll_response (buf : Option Buffer) (files : List Chunk) (offset : Nat) :
    PollOutcome × Option Buffer :=
  match buf with
  | none => (.notFound, none)
  | some b =>
      let chunks' := pollChunks b files
      let b' := { b with chunks := chunks' }
      let out := PollOutcome.ok (chunks'.drop offset) chunks'.length
        b.done b.error b.sessionId
      if b.done ∧ chunks'.length ≤ offset then (out, none)
      else (out, some b')

/-- The per-session registry entry the idle sweep inspects: the
`last_activity` reading and whether `current_process` is a live child
(`current_process is not None and current_process.poll() is None`). -/
structure Sess where
  lastActivity : Nat
  processRunning : Bool
  deriving DecidableEq, Repr

/-- `ClaudeSessionManager.destroy_session` (lines 733-743) as it acts on
the registry: `self.sessions.pop(session_id, None)`, then `stop()` on
the popped session (which kills its process if one is running). -/
def destroy_session (sessions : List (String × Sess)) (sessionId : String) :
    List (String × Sess) :=
  sessions.filter (fun p => ¬ p.1 = sessionId)

/-- The idle test of the sweep: `idle_time > max_age_seconds` with
`idle_time = current_time - session.last_activity`. -/
def isStale (currentTime maxAge : Nat) (s : Sess) : Bool :=
  maxAge < currentTime - s.lastActivity

/-- `ClaudeSessionManager.cleanup_idle_sessions` (lines 745-772): the
ids of all sessions whose idle time exceeds `max_age_seconds` are
collected, each is destroyed, and the number destroyed is returned.
`current_time = time.time()` is passed in explicitly.  The session's
`current_process` is never consulted. -/
def cleanup_idle_sessions (currentTime maxAge : Nat)
    (sessions : List (String × Sess)) : List (String × Sess) × Nat :=
  let sessionsToCleanup :=
    (sessions.filter (fun p => isStale currentTime maxAge p.2)).map Prod.fst
  (sessionsToCleanup.foldl destroy_session sessions, sessionsToCleanup.length)

lemma runLines_result (st : DecState) (rest : List Line) :
    runLines st (Line.ev Ev.result :: rest) = (st, []) := by
  simp [runLines, decodeLine, handleEvent, handleChain]

lemma runLines_messageStop_of_toolUse (st : DecState) (rest : List Line)
    (h : st.lastStopReason = some "tool_use") :
    runLines st (Line.ev Ev.messageStop :: rest) = runLines st rest := by
  simp [runLines, decodeLine, handleEvent, handleChain, h]

lemma runLines_messageStop_of_other (st : DecState) (rest : List Line)
    (h : ¬ st.lastStopReason = some "tool_use") :
    runLines st (Line.ev Ev.messageStop :: rest) = (st, []) := by
  simp [runLines, decodeLine, handleEvent, handleChain, h]

/-- A decode state whose remembered `_last_stop_reason` is `tool_use`. -/
def toolUseState : DecState :=
  { initDecState with lastStopReason := some "tool_use" }

/-- Claim C1: a `message_stop` event whose remembered stop reason
(recorded from a prior `message_delta`) is `tool_use` does not terminate
the decoding loop — the run over `message_stop :: rest` is exactly the
run over `rest`, so subsequent lines keep being read — while a later
terminal event still stops the loop: a `result` event ends the run at
once, as does a `message_stop` under any remembered stop reason other
than `tool_use`. -/
theorem tool_use_message_stop_does_not_terminate
    (st stR stM : DecState) (rest restR restM : List Line)
    (h : st.lastStopReason = some "tool_use")
    (hM : ¬ stM.lastStopReason = some "tool_use") :
    runLines st (Line.ev Ev.messageStop :: rest) = runLines st rest
    ∧ runLines stR (Line.ev Ev.result :: restR) = (stR, [])
    ∧ runLines stM (Line.ev Ev.messageStop :: restM) = (stM, []) :=
  ⟨runLines_messageStop_of_toolUse st rest h,
   runLines_result stR restR,
   runLines_messageStop_of_other stM restM hM⟩

/-- Witness for C1 at a concrete input: the state remembering
`tool_use`, a `message_stop` line followed by a `result` line, and an
empty-stop-reason state for the terminal `message_stop` case. -/
theorem tool_use_message_stop_witness :
    runLines toolUseState (Line.ev Ev.messageStop :: [Line.ev Ev.result])
        = runLines toolUseState [Line.ev Ev.result]
    ∧ runLines initDecState (Line.ev Ev.result :: []) = (initDecState, [])
    ∧ runLines initDecState (Line.ev Ev.messageStop :: []) = (initDecState, []) :=
  tool_use_message_stop_does_not_terminate toolUseState initDecState initDecState
    [Line.ev Ev.result] [] [] rfl (by decide)

/-- Claim C8: decoding one raw line is total (`decodeLine` is a total
function) and the two degraded cases behave as specified: a line that
fails to parse as JSON yields exactly the `live_message` chunk carrying
that line, and a parsed record of an unknown type yields nothing at all
— in particular neither case emits a text delta or an error chunk, and
neither terminates the loop. -/
theorem decode_line_total_unknown_silent (st : DecState) (s tag : String) :
    decodeLine st (Line.notJson s) = (st, [Update.liveMessage s], false)
    ∧ decodeLine st (Line.ev (Ev.unknown tag)) = (st, [], false) :=
  ⟨rfl, rfl⟩

/-- The §8 example stream of the spec, with the stop reason carried by
the `message_delta` that precedes `message_stop` on the wire: a
tool-use `content_block_start`, the `tool_use` stop reason, the
`message_stop`, the tool result's text delta and the final `result`
event. -/
def toolUseExampleEvents : List Line :=
  [Line.ev (Ev.contentBlockStart (ContentBlock.toolUse (some "Bash"))),
   Line.ev (Ev.messageDelta (some "tool_use")),
   Line.ev Ev.messageStop,
   Line.ev (Ev.contentBlockDelta (BlockDelta.textDelta (some "result text"))),
   Line.ev Ev.result]

/-- Counterexample to C4 as stated: decoding the spec's tool-use example
stream yields exactly one update — the text delta `"result text"` — so
no `ToolInvocation` update is ever yielded (the tool-use
`content_block_start` only records the tool name in the loop state) and
no explicit `Completion` update is yielded at `result` (the loop simply
stops).  The claimed `ToolInvocation … then TextDelta … then Completion`
output is therefore false on this input. -/
theorem tool_use_example_no_tool_invocation_update :
    runLines initDecState toolUseExampleEvents =
      ({ responseText := "result text", lastStopReason := some "tool_use",
         currentTool := some "Bash", currentToolInput := "" },
       [Update.textDelta "result text"]) := by
  decide

/-- Claim C4 as amended: on the tool-use example stream the decoder does
not stop at the first `message_stop` — the tool result's text delta
`"result text"` is still yielded and the run terminates at the `result`
event, ignoring anything after it — but the only update yielded is that
text delta: the tool-use start is recorded silently in `current_tool`
(no `ToolInvocation` update exists in the code) and completion is
signalled by the stream ending rather than by a `Completion` chunk. -/
theorem tool_use_example_amended (junk : List Line) :
    (runLines initDecState (toolUseExampleEvents ++ junk)).2
        = [Update.textDelta "result text"]
    ∧ (runLines initDecState toolUseExampleEvents).1.currentTool = some "Bash" := by
  refine ⟨?_, by decide⟩
  simp [toolUseExampleEvents, runLines, decodeLine, handleEvent, handleChain,
    initDecState]

/-- Claim C3 (the code against the claim): the idle watchdog only runs
after the blocking `readline` has returned a line.  With an idle budget
of 120s: (a) a child that produces no output at all is never terminated
and no error update is ever yielded — the loop stays blocked, so the
run over an empty arrival list yields nothing and records no kill; and
(b) when a first line finally arrives at t = 10000s, far beyond the
budget, the kill and the hung-process chunk happen only then, at
t = 10000 rather than within 120s + ε — and the SIGKILLed process's
nonzero exit code makes the stream yield a second error chunk, so even
then the terminal `Error` update is not unique. -/
theorem idle_watchdog_only_fires_on_next_line :
    send_message_stream_timed 0 [] 0 = []
    ∧ runTimedAux 120 initDecState 0 [] = (initDecState, [], none)
    ∧ send_message_stream_timed 0 [⟨10000, Line.ev Ev.result⟩] 0
        = [Update.hungMessage, Update.exitError (-9)]
    ∧ (runTimedAux 120 initDecState 0 [⟨10000, Line.ev Ev.result⟩]).2.2
        = some 10000 := by
  refine ⟨rfl, rfl, ?_, rfl⟩
  decide

/-- The approval subsystem with no pending request and no response file. -/
def approvalEmptyState : ApprovalState := ⟨[], fun _ => none⟩

/-- The state after a tool created approval request `A1` for session
`S1`. -/
def approvalAfterCreate : ApprovalState :=
  (create_approval_request approvalEmptyState "A1" "S1" "update billing" []).1

/-- The state after the user then responded `approved = false` to `A1`. -/
def approvalAfterDeny : ApprovalState :=
  (respond_to_approval approvalAfterCreate "A1" false).1

/-- Claim C2 (the code against the claim): after `createApproval` for a
session and `respondApproval(approved = false)`, the next `pollApproval`
observes status `"pending"`, not `"denied"`; the entry is never removed,
so a second poll observes `"pending"` again instead of not-found.  The
respond endpoint wrote the denial only to the per-id response file and
left the `pending_approvals` table untouched, so the status transition
the claim (and `poll_approval`'s own cleanup branch) expects never
happens. -/
theorem respond_denied_poll_still_pending :
    (poll_approval approvalAfterDeny "A1").1 = PollApprovalResult.ok "pending" none
    ∧ (poll_approval ((poll_approval approvalAfterDeny "A1").2) "A1").1
        = PollApprovalResult.ok "pending" none
    ∧ approvalAfterDeny.responseFiles "A1" = some false
    ∧ approvalAfterDeny.pendingApprovals = approvalAfterCreate.pendingApprovals := by
  refine ⟨rfl, rfl, rfl, rfl⟩

/-- Claim C10: `respond_to_approval` validates nothing: for every
approval id — including one with no pending request — it records the
decision in the per-id response file, reports success, and leaves the
whole in-memory `pending_approvals` table unchanged (in particular no
entry's status is mutated). -/
theorem respond_accepts_any_approval_id (st : ApprovalState)
    (approvalId : String) (approved : Bool) :
    (respond_to_approval st approvalId approved).1.pendingApprovals
        = st.pendingApprovals
    ∧ (respond_to_approval st approvalId approved).2 = true
    ∧ (respond_to_approval st approvalId approved).1.responseFiles approvalId
        = some approved := by
  refine ⟨rfl, rfl, ?_⟩
  simp [respond_to_approval]

lemma containsApprovalId_iff (c : List Chunk) (v : Option String) :
    containsApprovalId c v = true ↔ ∃ ch ∈ c, ch.approvalId = v := by
  simp [containsApprovalId, List.any_eq_true]

lemma mem_injectApprovals {a : Chunk} (fs : List Chunk) (c : List Chunk) (h : a ∈ c) :
    a ∈ injectApprovals c fs := by
  induction fs generalizing c with
  | nil => simpa [injectApprovals] using h
  | cons f fs ih =>
      simp only [injectApprovals]
      by_cases hc : containsApprovalId c f.approvalId
      · simpa [hc] using ih c h
      · exact (by simpa [hc] using ih (c ++ [f]) (List.mem_append_left _ h))

lemma containsApprovalId_injectApprovals_mono {v : Option String} (fs : List Chunk)
    (c : List Chunk) (h : containsApprovalId c v = true) :
    containsApprovalId (injectApprovals c fs) v = true := by
  rw [containsApprovalId_iff] at h ⊢
  obtain ⟨ch, hch, he⟩ := h
  exact ⟨ch, mem_injectApprovals fs c hch, he⟩

lemma containsApprovalId_injectApprovals_of_mem (fs : List Chunk) (c : List Chunk)
    (f : Chunk) (hf : f ∈ fs) :
    containsApprovalId (injectApprovals c fs) f.approvalId = true := by
  induction fs generalizing c with
  | nil => cases hf
  | cons g gs ih =>
      simp only [injectApprovals]
      rcases List.mem_cons.mp hf with rfl | hf'
      · by_cases hc : containsApprovalId c f.approvalId
        · simpa [hc] using containsApprovalId_injectApprovals_mono gs c hc
        · have hm : containsApprovalId (c ++ [f]) f.approvalId = true := by
            rw [containsApprovalId_iff]
            exact ⟨f, List.mem_append_right _ (List.mem_singleton.mpr rfl), rfl⟩
          simpa [hc] using containsApprovalId_injectApprovals_mono gs (c ++ [f]) hm
      · by_cases hc : containsApprovalId c g.approvalId
        · simpa [hc] using ih c hf'
        · simpa [hc] using ih (c ++ [g]) hf'

lemma injectApprovals_eq_of_contains (fs : List Chunk) (c : List Chunk)
    (h : ∀ f ∈ fs, containsApprovalId c f.approvalId = true) :
    injectApprovals c fs = c := by
  induction fs with
  | nil => rfl
  | cons g gs ih =>
      have hg := h g (List.mem_cons_self g gs)
      simp only [injectApprovals, hg, if_pos]
      exact ih (fun f hf => h f (List.mem_cons_of_mem g hf))

lemma injectApprovals_idem (c fs : List Chunk) :
    injectApprovals (injectApprovals c fs) fs = injectApprovals c fs :=
  injectApprovals_eq_of_contains fs _
    (fun f hf => containsApprovalId_injectApprovals_of_mem fs c f hf)

lemma injectApprovals_nodup (fs : List Chunk) (c : List Chunk)
    (h : (c.filterMap Chunk.approvalId).Nodup) :
    ((injectApprovals c fs).filterMap Chunk.approvalId).Nodup := by
  induction fs generalizing c with
  | nil => simpa [injectApprovals] using h
  | cons g gs ih =>
      simp only [injectApprovals]
      by_cases hc : containsApprovalId c g.approvalId
      · simpa [hc] using ih c h
      · have hnew : ((c ++ [g]).filterMap Chunk.approvalId).Nodup := by
          rw [List.filterMap_append]
          cases hg : g.approvalId with
          | none => simpa [hg] using h
          | some a =>
              have ha : a ∉ c.filterMap Chunk.approvalId := by
                intro hmem
                obtain ⟨ch, hch, he⟩ := List.mem_filterMap.mp hmem
                exact hc ((containsApprovalId_iff c g.approvalId).mpr
                  ⟨ch, hch, by rw [he, hg]⟩)
              simpa [hg] using List.Nodup.append h (List.nodup_singleton a)
                (List.disjoint_singleton.mpr ha)
        simpa [hc] using ih (c ++ [g]) hnew

lemma pollChunks_idem (b : Buffer) (files : List Chunk) :
    pollChunks { b with chunks := pollChunks b files } files = pollChunks b files := by
  unfold pollChunks
  by_cases hs : sessionTruthy b.sessionId
  · simp [hs, injectApprovals_idem]
  · simp [hs]

/-- A response buffer already marked done with every chunk consumed. -/
def emptyDoneBuffer : Buffer :=
  { chunks := [], done := true, error := none, sessionId := none }

/-- Counterexample to C5 as stated: against a finished channel whose
chunks the caller has fully consumed, two polls at the same offset do
not return the same result — the first poll returns the final state and
deletes the buffer entry, so the second poll reports not-found. -/
theorem final_consuming_poll_discards_channel :
    (poll_response (some emptyDoneBuffer) [] 0).1
        = PollOutcome.ok [] 0 true none none
    ∧ (poll_response (some emptyDoneBuffer) [] 0).2 = none
    ∧ (poll_response ((poll_response (some emptyDoneBuffer) [] 0).2) [] 0).1
        = PollOutcome.notFound
    ∧ PollOutcome.notFound ≠ PollOutcome.ok [] 0 true none none := by
  refine ⟨?_, ?_, ?_, ?_⟩ <;> decide

/-- Claim C5 as amended: `poll(id, offset)` is idempotent for a given
offset against a channel that has produced no new updates in between —
same outcome and same stored state — provided the first poll is not the
final consuming poll, i.e. unless `done` is set and `offset` already
covers every chunk (after approval injection); in that one remaining
case the first poll deletes the channel entry and a repeat poll reports
not-found. -/
theorem poll_idempotent_unless_discarded (b : Buffer) (files : List Chunk)
    (offset : Nat)
    (h : ¬ (b.done = true ∧ (pollChunks b files).length ≤ offset)) :
    poll_response ((poll_response (some b) files offset).2) files offset
      = poll_response (some b) files offset := by
  simp only [poll_response]
  rw [if_neg h]
  simp only [poll_response, pollChunks_idem]
  rw [if_neg h]

/-- A running channel with one plain text chunk. -/
def runningBuffer : Buffer :=
  { chunks := [{ ty := some "chunk", content := some "Hello", approvalId := none }],
    done := false, error := none, sessionId := some "S1" }

/-- An approval-request file pending for the session of `runningBuffer`. -/
def approvalFileA1 : Chunk :=
  { ty := some "approval_request", content := none, approvalId := some "A1" }

/-- Witness for C5 at a concrete input: a running channel (not yet
done), one approval file, offset 0. -/
theorem poll_idempotent_witness :
    poll_response ((poll_response (some runningBuffer) [approvalFileA1] 0).2)
        [approvalFileA1] 0
      = poll_response (some runningBuffer) [approvalFileA1] 0 :=
  poll_idempotent_unless_discarded runningBuffer [approvalFileA1] 0 (by decide)

/-- Claim C9: the poll path injects each pending approval request at
most once.  If the buffer's chunks carry pairwise-distinct approval ids,
then the chunk list after the injection step still does (a file whose
`approval_id` already appears among the chunks is skipped by the dedup
check), and the buffer a poll stores back is exactly that injected
list — so repeated polls can never duplicate an `ApprovalRequest`
update. -/
theorem poll_injects_each_approval_at_most_once (b : Buffer)
    (files : List Chunk) (offset : Nat)
    (h : (b.chunks.filterMap Chunk.approvalId).Nodup) :
    ((pollChunks b files).filterMap Chunk.approvalId).Nodup
    ∧ ∀ b', (poll_response (some b) files offset).2 = some b' →
        b'.chunks = pollChunks b files := by
  constructor
  · unfold pollChunks
    by_cases hs : sessionTruthy b.sessionId
    · simpa [hs] using injectApprovals_nodup files b.chunks h
    · simpa [hs] using h
  · intro b' hb'
    by_cases hdel : (b.done = true ∧ (pollChunks b files).length ≤ offset)
    · simp [poll_response, hdel] at hb'
    · simp only [poll_response, if_neg hdel, Option.some.injEq] at hb'
      rw [← hb']

/-- Witness for C9 at a concrete input: polling `runningBuffer` twice
over with the same approval file present injects `A1` only once. -/
theorem poll_injects_at_most_once_witness :
    ((pollChunks runningBuffer [approvalFileA1]).filterMap Chunk.approvalId).Nodup
    ∧ ∀ b', (poll_response (some runningBuffer) [approvalFileA1] 0).2 = some b' →
        b'.chunks = pollChunks runningBuffer [approvalFileA1] :=
  poll_injects_each_approval_at_most_once runningBuffer [approvalFileA1] 0 (by decide)

lemma foldl_destroy_session (ids : List String) (s : List (String × Sess)) :
    ids.foldl destroy_session s
      = s.filter (fun p => !(ids.any (fun i => p.1 == i))) := by
  induction ids generalizing s with
  | nil => simp
  | cons i ids ih =>
      rw [List.foldl_cons, ih]
      unfold destroy_session
      rw [List.filter_filter]
      apply List.filter_congr
      intro p _
      by_cases hpi : p.1 = i
      · simp [hpi, List.any_cons]
      · simp [hpi, List.any_cons]

lemma nodup_keys_inj {α : Type} {l : List (String × α)}
    (h : (l.map Prod.fst).Nodup) {p q : String × α}
    (hp : p ∈ l) (hq : q ∈ l) (hk : p.1 = q.1) : p = q := by
  induction l with
  | nil => cases hp
  | cons a t ih =>
      rw [List.map_cons, List.nodup_cons] at h
      rcases List.mem_cons.mp hp with rfl | hp' <;>
        rcases List.mem_cons.mp hq with rfl | hq'
      · rfl
      · exact absurd (hk ▸ List.mem_map_of_mem Prod.fst hq') h.1
      · exact absurd (hk ▸ List.mem_map_of_mem Prod.fst hp') h.1
      · exact ih h.2 hp' hq'

/-- Claim C7: with distinct session ids in the registry (a Python dict
guarantees this), one run of the idle sweep at `currentTime` with
threshold `maxAge` keeps exactly the sessions whose last-activity is not
older than the threshold, reports as destroyed exactly the count of the
stale ones, and a second run immediately after — same clock, no new
activity — destroys nothing and leaves the registry unchanged. -/
theorem idle_sweep_exact_and_idempotent (currentTime maxAge : Nat)
    (sessions : List (String × Sess))
    (h : (sessions.map Prod.fst).Nodup) :
    (cleanup_idle_sessions currentTime maxAge sessions).1
        = sessions.filter (fun p => !(isStale currentTime maxAge p.2))
    ∧ (cleanup_idle_sessions currentTime maxAge sessions).2
        = (sessions.filter (fun p => isStale currentTime maxAge p.2)).length
    ∧ cleanup_idle_sessions currentTime maxAge
        (cleanup_idle_sessions currentTime maxAge sessions).1
      = ((cleanup_idle_sessions currentTime maxAge sessions).1, 0) := by
  have hkey : ∀ p ∈ sessions,
      (!(((sessions.filter (fun q => isStale currentTime maxAge q.2)).map
            Prod.fst).any (fun i => p.1 == i)))
        = !(isStale currentTime maxAge p.2) := by
    intro p hp
    congr 1
    rw [Bool.eq_iff_iff]
    simp only [List.any_eq_true, List.mem_map, List.mem_filter, beq_iff_eq]
    constructor
    · rintro ⟨i, ⟨q, ⟨hq, hqs⟩, hqi⟩, hpi⟩
      have : p = q := nodup_keys_inj h hp hq (by rw [hpi, hqi])
      rw [this]; exact hqs
    · intro hs
      exact ⟨p.1, ⟨p, ⟨hp, hs⟩, rfl⟩, rfl⟩
  have h1 : (cleanup_idle_sessions currentTime maxAge sessions).1
      = sessions.filter (fun p => !(isStale currentTime maxAge p.2)) := by
    show ((sessions.filter (fun q => isStale currentTime maxAge q.2)).map
        Prod.fst).foldl destroy_session sessions = _
    rw [foldl_destroy_session]
    exact List.filter_congr hkey
  have h2 : (cleanup_idle_sessions currentTime maxAge sessions).2
      = (sessions.filter (fun p => isStale currentTime maxAge p.2)).length := by
    show ((sessions.filter (fun q => isStale currentTime maxAge q.2)).map
        Prod.fst).length = _
    rw [List.length_map]
  refine ⟨h1, h2, ?_⟩
  have hnil : (sessions.filter (fun p => !(isStale currentTime maxAge p.2))).filter
      (fun q => isStale currentTime maxAge q.2) = [] := by
    rw [List.filter_eq_nil_iff]
    intro p hp
    have := List.of_mem_filter hp
    simp at this
    simp [this]
  show cleanup_idle_sessions currentTime maxAge
      (cleanup_idle_sessions currentTime maxAge sessions).1 = _
  rw [h1]
  unfold cleanup_idle_sessions
  rw [hnil]
  simp

/-- Witness for C7 at a concrete input: a stale session and a fresh one,
swept at time 2000 with a 1800s threshold. -/
theorem idle_sweep_exact_witness :
    (cleanup_idle_sessions 2000 1800
        [("old", ⟨0, false⟩), ("fresh", ⟨1900, true⟩)]).1
      = [("old", (⟨0, false⟩ : Sess)), ("fresh", ⟨1900, true⟩)].filter
          (fun p => !(isStale 2000 1800 p.2))
    ∧ (cleanup_idle_sessions 2000 1800
        [("old", ⟨0, false⟩), ("fresh", ⟨1900, true⟩)]).2
      = ([("old", (⟨0, false⟩ : Sess)), ("fresh", ⟨1900, true⟩)].filter
          (fun p => isStale 2000 1800 p.2)).length
    ∧ cleanup_idle_sessions 2000 1800
        (cleanup_idle_sessions 2000 1800
          [("old", ⟨0, false⟩), ("fresh", ⟨1900, true⟩)]).1
      = ((cleanup_idle_sessions 2000 1800
          [("old", ⟨0, false⟩), ("fresh", ⟨1900, true⟩)]).1, 0) :=
  idle_sweep_exact_and_idempotent 2000 1800
    [("old", ⟨0, false⟩), ("fresh", ⟨1900, true⟩)] (by decide)

/-- Counterexample to C6 as stated: a session whose child process is
live (`current_process.poll()` returns `None`) but whose last activity
is 2000s old is destroyed by a sweep with the default 1800s threshold —
`cleanup_idle_sessions` consults only `last_activity` and never the
process handle. -/
theorem idle_sweep_destroys_running_session :
    (⟨0, true⟩ : Sess).processRunning = true
    ∧ cleanup_idle_sessions 2000 1800 [("s1", ⟨0, true⟩)] = ([], 1) :=
  ⟨rfl, by decide⟩

/-- Claim C6 as amended: the idle sweep's destruction decision depends
only on the session's last-activity age, never on whether its child
process is running: any session stale beyond the threshold is destroyed
whatever the state of its process flag (the destruction then kills a
live process via `stop()`), so a running invocation protects a session
only as long as its `last_activity` stays within the threshold. -/
theorem idle_sweep_ignores_running_process (currentTime maxAge la : Nat)
    (id : String) (pr : Bool) (h : maxAge < currentTime - la) :
    cleanup_idle_sessions currentTime maxAge [(id, ⟨la, pr⟩)] = ([], 1) := by
  unfold cleanup_idle_sessions
  simp [isStale, destroy_session, h]

/-- Witness for the amended C6 at a concrete input: a stale session with
a live process is swept away. -/
theorem idle_sweep_ignores_running_process_witness :
    cleanup_idle_sessions 2000 1800 [("s2", ⟨100, true⟩)] = ([], 1) :=
  idle_sweep_ignores_running_process 2000 1800 100 "s2" true (by decide)
